import Mathlib

/-!
Verification of the metadata consolidation engine of the
paperless-metadata-manager backend: the low-usage filter, the prefix / hybrid
grouping used for merge suggestions, the merge orchestrator, the bulk-delete
fallback of the remote gateway, and the LLM response parser.

Conventions of the embedding:
* Python lists become Lean `List`, Python `int` counts and ids become `Nat`
  (they are non-negative resource identifiers / counts throughout the code).
* The external regex engine (`re.search(pattern, name, re.IGNORECASE)`) is
  modelled as an abstract matcher parameter `search : String → String → Bool`
  (pattern first, then subject), since the filter functions only branch on
  whether a pattern matched.
* Remote HTTP endpoints are external collaborators: their responses are
  passed in as explicit parameters, and the calls a function would issue are
  returned as explicit trace data.
-/

namespace Paperless

/-- A Paperless-ngx tag, following dataclass `Tag` in `app/paperless_client.py`.
The dataclass field `match` is a Lean keyword, so it is embedded as `match_`. -/
structure Tag where
  id : Nat
  name : String
  slug : String
  color : String
  matching_algorithm : Nat
  match_ : String
  is_insensitive : Bool
  document_count : Nat
deriving Repr, DecidableEq

/-- Property `Tag.is_auto`: the tag uses automatic matching (algorithm 6). -/
def Tag.is_auto (t : Tag) : Bool :=
  t.matching_algorithm == 6

/-- A Paperless-ngx correspondent, following dataclass `Correspondent` in
`app/paperless_client.py`. -/
structure Correspondent where
  id : Nat
  name : String
  slug : String
  matching_algorithm : Nat
  match_ : String
  is_insensitive : Bool
  document_count : Nat
deriving Repr, DecidableEq

/-- Property `Correspondent.is_auto`: automatic matching (algorithm 6). -/
def Correspondent.is_auto (c : Correspondent) : Bool :=
  c.matching_algorithm == 6

/-- Python `str.lower()`: the ASCII character case map over the string's
characters.  Lean's own `String.toLower` is the same map but is defined by
well-founded recursion, which the kernel cannot evaluate on concrete
examples, so the embedding uses this structural definition. -/
def strLower (s : String) : String :=
  ⟨s.data.map Char.toLower⟩

/-- Python `s[:n]`, structurally over the character list. -/
def strTake (s : String) (n : Nat) : String :=
  ⟨s.data.take n⟩

/-- Function `paginate` of `app/routers/base.py` (lines 64-73): returns the
page slice `items[start_idx:end_idx]`, the total, and
`(total + page_size - 1) // page_size if page_size > 0 else 1`. -/
def paginate {α : Type} (items : List α) (page : Nat) (page_size : Nat) :
    List α × Nat × Nat :=
  let total := items.length
  let total_pages := if page_size > 0 then (total + page_size - 1) / page_size else 1
  let start_idx := (page - 1) * page_size
  ((items.drop start_idx).take page_size, total, total_pages)

/-- Function `find_low_usage_tags` of `app/paperless_client.py` (lines
516-543), with the regex engine abstracted into `search`.  The source's
per-pattern loop with `break` is the boolean `any`; auto-matching tags are
excluded unconditionally and there is no `exclude_auto` parameter. -/
def find_low_usage_tags (search : String → String → Bool) (tags : List Tag)
    (max_docs : Nat) (exclude_patterns : List String) : List Tag :=
  tags.foldl
    (fun low_usage tag =>
      if tag.document_count > max_docs then low_usage
      else
        let excluded := exclude_patterns.any (fun p => search p tag.name)
        let excluded := excluded || tag.is_auto
        if !excluded then low_usage ++ [tag] else low_usage)
    []

/-- Function `find_low_usage_correspondents` of `app/paperless_client.py`
(lines 488-513), same structure as the tag version. -/
def find_low_usage_correspondents (search : String → String → Bool)
    (correspondents : List Correspondent) (max_docs : Nat)
    (exclude_patterns : List String) : List Correspondent :=
  correspondents.foldl
    (fun low_usage c =>
      if c.document_count > max_docs then low_usage
      else
        let excluded := exclude_patterns.any (fun p => search p c.name)
        let excluded := excluded || c.is_auto
        if !excluded then low_usage ++ [c] else low_usage)
    []

/-- Modelled from the spec: the routers (`list_low_usage_tags` in
`app/routers/tags.py`, `list_low_usage_items` in `app/routers/base.py`) call
the low-usage filter with an `exclude_auto` keyword argument, but the source
tree's copy of `app/paperless_client.py` is a superseded revision whose
filter takes no such parameter; the revision defining the flag-accepting
filter is missing.  Following spec section 4.1, the output keeps exactly the
entities with `documentCount <= maxDocs` that match no exclude pattern and
are not dropped by `excludeAuto AND isAuto`, written in the same loop shape
as the superseded source revision. -/
def findLowUsageSpec (search : String → String → Bool) (tags : List Tag)
    (max_docs : Nat) (exclude_patterns : List String) (exclude_auto : Bool) :
    List Tag :=
  tags.foldl
    (fun low_usage tag =>
      if tag.document_count > max_docs then low_usage
      else
        let excluded := exclude_patterns.any (fun p => search p tag.name)
        let excluded := excluded || (exclude_auto && tag.is_auto)
        if !excluded then low_usage ++ [tag] else low_usage)
    []

/-- A left fold that appends elements passing a test is the filter. -/
theorem foldl_append_filter {α : Type} (p : α → Bool) (f : List α → α → List α)
    (hf : ∀ acc x, f acc x = if p x then acc ++ [x] else acc) :
    ∀ (l acc : List α), l.foldl f acc = acc ++ l.filter p := by
  intro l
  induction l with
  | nil => intro acc; simp
  | cons x xs ih =>
    intro acc
    rw [List.foldl_cons, hf, List.filter_cons]
    by_cases h : p x <;> simp [h, ih]

/-- The tag low-usage filter is the list filter by its conjunction. -/
theorem find_low_usage_tags_eq_filter (search : String → String → Bool)
    (tags : List Tag) (max_docs : Nat) (pats : List String) :
    find_low_usage_tags search tags max_docs pats =
      tags.filter (fun t =>
        decide (t.document_count ≤ max_docs)
          && !(pats.any (fun p => search p t.name)) && !t.is_auto) := by
  unfold find_low_usage_tags
  rw [foldl_append_filter
    (fun t => decide (t.document_count ≤ max_docs)
      && !(pats.any (fun p => search p t.name)) && !t.is_auto)]
  · simp
  · intro acc t
    by_cases h1 : t.document_count > max_docs
    · simp [h1, Nat.not_le_of_lt h1]
    · have h2 : t.document_count ≤ max_docs := Nat.le_of_not_lt h1
      by_cases h3 : pats.any (fun p => search p t.name) <;>
        by_cases h4 : t.is_auto <;> simp [h1, h2, h3, h4]

/-- The correspondent low-usage filter is the list filter by its conjunction. -/
theorem find_low_usage_correspondents_eq_filter (search : String → String → Bool)
    (cs : List Correspondent) (max_docs : Nat) (pats : List String) :
    find_low_usage_correspondents search cs max_docs pats =
      cs.filter (fun c =>
        decide (c.document_count ≤ max_docs)
          && !(pats.any (fun p => search p c.name)) && !c.is_auto) := by
  unfold find_low_usage_correspondents
  rw [foldl_append_filter
    (fun c => decide (c.document_count ≤ max_docs)
      && !(pats.any (fun p => search p c.name)) && !c.is_auto)]
  · simp
  · intro acc c
    by_cases h1 : c.document_count > max_docs
    · simp [h1, Nat.not_le_of_lt h1]
    · have h2 : c.document_count ≤ max_docs := Nat.le_of_not_lt h1
      by_cases h3 : pats.any (fun p => search p c.name) <;>
        by_cases h4 : c.is_auto <;> simp [h1, h2, h3, h4]

/-- The spec-modelled flag-accepting filter is the list filter by the spec's
conjunction. -/
theorem findLowUsageSpec_eq_filter (search : String → String → Bool)
    (tags : List Tag) (max_docs : Nat) (pats : List String) (ea : Bool) :
    findLowUsageSpec search tags max_docs pats ea =
      tags.filter (fun t =>
        decide (t.document_count ≤ max_docs)
          && !(pats.any (fun p => search p t.name)) && !(ea && t.is_auto)) := by
  unfold findLowUsageSpec
  rw [foldl_append_filter
    (fun t => decide (t.document_count ≤ max_docs)
      && !(pats.any (fun p => search p t.name)) && !(ea && t.is_auto))]
  · simp
  · intro acc t
    by_cases h1 : t.document_count > max_docs
    · simp [h1, Nat.not_le_of_lt h1]
    · have h2 : t.document_count ≤ max_docs := Nat.le_of_not_lt h1
      by_cases h3 : pats.any (fun p => search p t.name) <;>
        by_cases h4 : ea && t.is_auto <;> simp [h1, h2, h3, h4]

/-! ### Prefix grouping (`group_tags_by_prefix`, `group_correspondents_by_prefix`)

The two source functions are textually identical up to the entity type, so
the embedding factors the shared body into `group_by_prefix_core` over a
`name` and a `document_count` accessor, instantiated once per entity kind. -/

/-- Separator characters of the split `re.split(r"[\s_\-]+", name_lower)`. -/
def isSepChar (c : Char) : Bool :=
  c.isWhitespace || c == '_' || c == '-'

/-- Worker for `reSplitSeps`: `cur` holds the (reversed) characters of the
token being read and `prevSep` records whether the previous character was a
separator, so that an entire separator run emits a single boundary. -/
def splitSepRunsAux (prevSep : Bool) (cur : List Char) : List Char → List String
  | [] => [String.mk cur.reverse]
  | c :: rest =>
    if isSepChar c then
      if prevSep then splitSepRunsAux true cur rest
      else String.mk cur.reverse :: splitSepRunsAux true [] rest
    else
      splitSepRunsAux false (c :: cur) rest

/-- Behavior of `re.split(r"[\s_\-]+", s)`: the string is divided at each
maximal run of separator characters, keeping the (possibly empty) leading and
trailing pieces, so the result is empty-free between tokens but starts with
`""` when `s` starts with a separator, and equals `[""]` for `s = ""`. -/
def reSplitSeps (s : String) : List String :=
  splitSepRunsAux false [] s.data

/-- The prefix key computed for one entity name inside the grouping loop:
the first token when the separator split yields more than one part,
otherwise the first `min_prefix_length` characters of the lowered name (the
whole name when shorter). -/
def prefixKeyOf (min_prefix_length : Nat) (name_lower : String) : String :=
  let parts := reSplitSeps name_lower
  if parts.length > 1 then parts.headD ""
  else if name_lower.length ≥ min_prefix_length then
    strTake name_lower min_prefix_length
  else name_lower

/-- Behavior of `defaultdict(list)` bucketing: append to the existing bucket
of the key, otherwise add a new bucket at the end (Python dicts preserve
insertion order). -/
def bucketAdd {α : Type} : List (String × List α) → String → α → List (String × List α)
  | [], k, t => [(k, [t])]
  | (k0, v) :: rest, k, t =>
    if k0 = k then (k0, v ++ [t]) :: rest else (k0, v) :: bucketAdd rest k t

/-- The comparison performed by `sorted(v, key=lambda t: (-t.document_count,
t.name.lower()))`: descending document count, ties broken by ascending
lowercased name.  As a non-strict total preorder, Mathlib's insertion sort
by this relation is the stable sort Python's `sorted` performs. -/
def entLe {α : Type} (name : α → String) (doc : α → Nat) (a b : α) : Prop :=
  doc b < doc a ∨ (doc a = doc b ∧ strLower (name a) ≤ strLower (name b))

instance {α : Type} (name : α → String) (doc : α → Nat) :
    DecidableRel (entLe name doc) := by
  intro a b
  unfold entLe
  infer_instance

instance {α : Type} (name : α → String) (doc : α → Nat) :
    IsTotal α (entLe name doc) := by
  constructor
  intro a b
  rcases Nat.lt_trichotomy (doc a) (doc b) with h | h | h
  · exact Or.inr (Or.inl h)
  · rcases le_total (strLower (name a)) (strLower (name b)) with h2 | h2
    · exact Or.inl (Or.inr ⟨h, h2⟩)
    · exact Or.inr (Or.inr ⟨h.symm, h2⟩)
  · exact Or.inl (Or.inl h)

instance {α : Type} (name : α → String) (doc : α → Nat) :
    IsTrans α (entLe name doc) := by
  constructor
  intro a b c hab hbc
  rcases hab with h1 | ⟨h1, h1s⟩ <;> rcases hbc with h2 | ⟨h2, h2s⟩
  · exact Or.inl (Nat.lt_of_lt_of_le h2 (Nat.le_of_lt h1))
  · exact Or.inl (h2 ▸ h1)
  · exact Or.inl (h1 ▸ h2)
  · exact Or.inr ⟨h1.trans h2, h1s.trans h2s⟩

/-- Shared body of `group_tags_by_prefix` and `group_correspondents_by_prefix`
in `app/paperless_client.py` (lines 546-576 and 579-611): bucket by prefix
key when the key is at least `min_prefix_length` characters, keep buckets
with more than one member, and sort each kept bucket. -/
def group_by_prefix_core {α : Type} (name : α → String) (doc : α → Nat)
    (items : List α) (min_prefix_length : Nat) : List (String × List α) :=
  let groups := items.foldl
    (fun groups item =>
      let key := prefixKeyOf min_prefix_length (strLower (name item))
      if key.length ≥ min_prefix_length then bucketAdd groups key item
      else groups)
    []
  (groups.filter (fun kv => kv.2.length > 1)).map
    (fun kv => (kv.1, List.insertionSort (entLe name doc) kv.2))

/-- Function `group_tags_by_prefix` of `app/paperless_client.py`. -/
def group_tags_by_prefix (tags : List Tag) (min_prefix_length : Nat) :
    List (String × List Tag) :=
  group_by_prefix_core Tag.name Tag.document_count tags min_prefix_length

/-- Function `group_correspondents_by_prefix` of `app/paperless_client.py`. -/
def group_correspondents_by_prefix (correspondents : List Correspondent)
    (min_prefix_length : Nat) : List (String × List Correspondent) :=
  group_by_prefix_core Correspondent.name Correspondent.document_count
    correspondents min_prefix_length

/-- Every group emitted by the shared grouping body is sorted by the
`sorted` key of the source: descending document count, ties by ascending
lowercased name. -/
theorem group_by_prefix_core_sorted {α : Type} (name : α → String)
    (doc : α → Nat) (items : List α) (n : Nat) (k : String) (g : List α)
    (h : (k, g) ∈ group_by_prefix_core name doc items n) :
    g.Pairwise (entLe name doc) := by
  unfold group_by_prefix_core at h
  simp only [List.mem_map, List.mem_filter] at h
  obtain ⟨⟨k0, v⟩, _, heq⟩ := h
  have hg : g = List.insertionSort (entLe name doc) v := (Prod.mk.injEq _ _ _ _ ▸ heq).2.symm
  rw [hg]
  exact List.sorted_insertionSort (entLe name doc) v

/-- Modelled from the spec: `group_tags_hybrid` is imported by
`app/routers/tags.py` from `app.paperless_client`, but the source tree's copy
of that module is a superseded revision that does not define it.  Following
spec section 4.4: run the Prefix Grouper first; when `enable_semantic`, run
the semantic grouper over the remaining ungrouped tags only, and merge both
maps under the `prefix:` / `semantic:` key namespaces.  The semantic grouper
itself (spec section 4.3 grants implementation freedom; it closes over the
`similarity_threshold`) is the abstract parameter `semantic`. -/
def group_tags_hybrid (semantic : List Tag → List (String × List Tag))
    (tags : List Tag) (min_prefix_length : Nat) (enable_semantic : Bool) :
    List (String × List Tag) :=
  let prefix_groups := group_tags_by_prefix tags min_prefix_length
  let prefixed := prefix_groups.map (fun kv => ("prefix:" ++ kv.1, kv.2))
  if enable_semantic then
    let claimed := prefix_groups.foldl (fun acc kv => acc ++ kv.2) []
    let remaining := tags.filter (fun t => !claimed.contains t)
    prefixed ++ (semantic remaining).map (fun kv => ("semantic:" ++ kv.1, kv.2))
  else
    prefixed

/-! ### Remote gateway: document bulk-edit calls and bulk delete with fallback -/

/-- A POST to `/api/documents/bulk_edit/`, as issued by
`add_tag_to_documents` and `set_correspondent_on_documents`. -/
inductive DocBulkEditCall where
  | add_tag (documents : List Nat) (tag : Nat)
  | set_correspondent (documents : List Nat) (correspondent : Nat)
deriving Repr, DecidableEq

/-- Function `add_tag_to_documents` of `app/paperless_client.py` (lines
187-200), as the list of remote requests it issues: none when `doc_ids` is
empty (the early return), otherwise the single bulk-edit POST. -/
def add_tag_to_documents (doc_ids : List Nat) (tag_id : Nat) :
    List DocBulkEditCall :=
  if doc_ids = [] then []
  else [DocBulkEditCall.add_tag doc_ids tag_id]

/-- Function `set_correspondent_on_documents` of `app/paperless_client.py`
(lines 470-485), as the list of remote requests it issues. -/
def set_correspondent_on_documents (doc_ids : List Nat)
    (correspondent_id : Nat) : List DocBulkEditCall :=
  if doc_ids = [] then []
  else [DocBulkEditCall.set_correspondent doc_ids correspondent_id]

/-- Response of the remote `/api/bulk_edit_objects/` endpoint, as far as the
bulk-delete code distinguishes it. -/
inductive BulkResp where
  | ok
  | httpError (status : Nat)
  | timeout
deriving Repr, DecidableEq

/-- Observable trace of one `bulk_delete_tags` / `bulk_delete_correspondents`
call: whether the bulk endpoint was hit, the fallback batches, the ids whose
individual delete was attempted (in order), the ids whose individual delete
failed, and the exception message raised, if any. -/
structure BulkDeleteTrace where
  bulk_attempted : Bool
  batches : List (List Nat)
  attempted : List Nat
  failed : List Nat
  raised : Option String
deriving Repr, DecidableEq

/-- The batching `for i in range(0, len(ids), batch_size)` with
`batch = ids[i : i + batch_size]` and `batch_size = 10`. -/
def chunks10 : List Nat → List (List Nat)
  | [] => []
  | x :: xs => (x :: xs).take 10 :: chunks10 ((x :: xs).drop 10)
termination_by l => l.length
decreasing_by
  simp only [List.length_drop, List.length_cons]
  omega

/-- The fallback double loop: every id of every batch gets one delete
attempt; a failed attempt is recorded and the loop continues. -/
def runBatches (dOk : Nat → Bool) (bs : List (List Nat)) :
    List Nat × List Nat :=
  bs.foldl
    (fun acc batch =>
      batch.foldl
        (fun acc2 id =>
          (acc2.1 ++ [id], if dOk id then acc2.2 else acc2.2 ++ [id]))
        acc)
    ([], [])

/-- Shared body of `bulk_delete_tags` (lines 207-255) and
`bulk_delete_correspondents` (lines 372-419) of `app/paperless_client.py`
(the two are textually identical up to the object type): empty input returns
immediately with no request; otherwise the bulk endpoint is tried once; on
HTTP 404 the per-id fallback runs; any other HTTP error and a timeout raise
without running the fallback.  `resp` is the remote endpoint's behavior and
`dOk` tells whether the individual delete of an id succeeds. -/
def bulk_delete_core (resp : BulkResp) (dOk : Nat → Bool) (ids : List Nat) :
    BulkDeleteTrace :=
  if ids = [] then ⟨false, [], [], [], none⟩
  else
    match resp with
    | BulkResp.ok => ⟨true, [], [], [], none⟩
    | BulkResp.httpError status =>
      if status = 404 then
        let bs := chunks10 ids
        let r := runBatches dOk bs
        ⟨true, bs, r.1, r.2, none⟩
      else
        ⟨true, [], [], [],
          some ("Paperless API error (status " ++ toString status ++ ")")⟩
    | BulkResp.timeout =>
      ⟨true, [], [], [],
        some ("Operation timed out while deleting " ++ toString ids.length
          ++ " items. They may still be deleted - please refresh to verify.")⟩

/-- Function `bulk_delete_tags` of `app/paperless_client.py`. -/
def bulk_delete_tags (resp : BulkResp) (dOk : Nat → Bool)
    (tag_ids : List Nat) : BulkDeleteTrace :=
  bulk_delete_core resp dOk tag_ids

/-- Function `bulk_delete_correspondents` of `app/paperless_client.py`. -/
def bulk_delete_correspondents (resp : BulkResp) (dOk : Nat → Bool)
    (correspondent_ids : List Nat) : BulkDeleteTrace :=
  bulk_delete_core resp dOk correspondent_ids

/-- The number of batches is the ceiling of `n / 10`. -/
theorem chunks10_length (l : List Nat) :
    (chunks10 l).length = (l.length + 9) / 10 := by
  induction l using chunks10.induct with
  | case1 => simp [chunks10]
  | case2 x xs ih =>
    rw [chunks10]
    simp only [List.length_cons, List.length_drop] at ih ⊢
    rw [ih]
    omega

/-- Concatenating the batches gives back the id list. -/
theorem chunks10_join (l : List Nat) : (chunks10 l).flatten = l := by
  induction l using chunks10.induct with
  | case1 => simp [chunks10]
  | case2 x xs ih =>
    rw [chunks10, List.flatten_cons, ih, List.take_append_drop]

/-- One fallback batch attempts every id of the batch and records exactly
the ids whose delete failed. -/
theorem batch_foldl_spec (dOk : Nat → Bool) (batch : List Nat) :
    ∀ acc : List Nat × List Nat,
      batch.foldl
        (fun acc2 id =>
          (acc2.1 ++ [id], if dOk id then acc2.2 else acc2.2 ++ [id]))
        acc
      = (acc.1 ++ batch, acc.2 ++ batch.filter (fun i => !dOk i)) := by
  induction batch with
  | nil => intro acc; simp
  | cons x xs ih =>
    intro acc
    rw [List.foldl_cons, ih, List.filter_cons]
    by_cases h : dOk x <;> simp [h]

/-- The fallback loop attempts every id of every batch, in order,
independently of which deletions fail, and records exactly the failures. -/
theorem runBatches_spec (dOk : Nat → Bool) (bs : List (List Nat)) :
    runBatches dOk bs = (bs.flatten, bs.flatten.filter (fun i => !dOk i)) := by
  unfold runBatches
  suffices h : ∀ acc : List Nat × List Nat,
      bs.foldl
        (fun acc batch =>
          batch.foldl
            (fun acc2 id =>
              (acc2.1 ++ [id], if dOk id then acc2.2 else acc2.2 ++ [id]))
            acc)
        acc
      = (acc.1 ++ bs.flatten, acc.2 ++ bs.flatten.filter (fun i => !dOk i)) by
    rw [h ([], [])]; simp
  induction bs with
  | nil => intro acc; simp
  | cons b rest ih =>
    intro acc
    rw [List.foldl_cons, batch_foldl_spec, ih]
    simp [List.filter_append]

/-! ### Merge orchestrator (`merge_tags` of `app/routers/tags.py`, also the
shared `merge_items` of `app/routers/base.py`, which has the same body up to
the entity kind) -/

/-- Remote state a merge runs against: the fetched entity snapshot and, for
each entity id, the ids of the documents associated with it (what
`get_documents_with_tag` returns; only `d.id` is consumed). -/
structure MergeState where
  tags : List Tag
  docsOf : Nat → List Nat

/-- Lookup in the Python dict `{t.id: t for t in all_tags}`: a duplicated id
keeps the last entry. -/
def dictLookupLast (tags : List Tag) (tid : Nat) : Option Tag :=
  tags.reverse.find? (fun t => t.id == tid)

/-- Remote lookup `get_tag_by_name` (`?name__iexact=`): the first entity
whose name equals the requested name case-insensitively. -/
def get_tag_by_name (st : MergeState) (name : String) : Option Tag :=
  st.tags.find? (fun t => strLower t.name == strLower name)

/-- Remote `create_tag name`: a fresh tag with the remote-assigned id
`freshId` and the remote's defaults. -/
def create_tag (freshId : Nat) (name : String) : Tag :=
  ⟨freshId, name, "", "#a6cee3", 0, "", true, 0⟩

/-- Python `set.add`: membership-checked insertion, modelled in first-seen
order (the code only uses the set's size, membership and its element list). -/
def setAdd (s : List Nat) (x : Nat) : List Nat :=
  if x ∈ s then s else s ++ [x]

/-- Python `set.update(iterable)`. -/
def setUpdate (s : List Nat) (xs : List Nat) : List Nat :=
  xs.foldl setAdd s

/-- The document-id collection loop of the merge: for each source entity,
fetch its documents and union their ids into `all_doc_ids`. -/
def collectDocIds (st : MergeState) (source_tags : List Tag) : List Nat :=
  source_tags.foldl (fun acc tag => setUpdate acc (st.docsOf tag.id)) []

/-- Failure modes of the merge endpoint that occur before any mutation. -/
inductive MergeError where
  | validation
  | notFound
deriving Repr, DecidableEq

/-- Result of a successful merge: the resolved sources, the resolved or
created target, the collected document-id set, the bulk-edit calls issued,
the ids passed to bulk delete (with `delete_call = none` when the list was
empty and no delete was issued), and the reported `affected_count`.  The
success message string is omitted. -/
structure MergeResult where
  source_tags : List Tag
  target : Tag
  all_doc_ids : List Nat
  add_calls : List DocBulkEditCall
  tags_to_delete : List Nat
  delete_call : Option (List Nat)
  affected_count : Nat
deriving Repr, DecidableEq

/-- The source resolution `[tag_map[tid] for tid in request.source_ids if
tid in tag_map]`: ids with no current entity are silently dropped, duplicate
request ids produce duplicate entries. -/
def resolveSources (st : MergeState) (source_ids : List Nat) : List Tag :=
  source_ids.filterMap (dictLookupLast st.tags)

/-- The target resolution of the merge: the case-insensitive exact-name
lookup, or a freshly created tag when absent. -/
def resolveTarget (st : MergeState) (freshId : Nat) (target_name : String) : Tag :=
  match get_tag_by_name st target_name with
  | some t => t
  | none => create_tag freshId target_name

/-- The delete-list comprehension `[t.id for t in source_tags if t.id !=
target_tag.id]`. -/
def mergeDeleteList (source_tags : List Tag) (target_tag : Tag) : List Nat :=
  (source_tags.filter (fun t => t.id ≠ target_tag.id)).map (fun t => t.id)

/-- Endpoint `merge_tags` of `app/routers/tags.py` (lines 324-370); the
generic `merge_items` of `app/routers/base.py` (lines 354-402) has the same
body.  `freshId` is the id the remote system would assign if the target has
to be created.  The source binds `source_tags`, `target_tag`, `all_doc_ids`
and `tags_to_delete` once each; here the bindings are the named helper
functions above, repeated at each use. -/
def merge_tags (st : MergeState) (freshId : Nat) (source_ids : List Nat)
    (target_name : String) : Except MergeError MergeResult :=
  if source_ids = [] then Except.error MergeError.validation
  else if target_name = "" then Except.error MergeError.validation
  else if resolveSources st source_ids = [] then Except.error MergeError.notFound
  else
    Except.ok
      { source_tags := resolveSources st source_ids
        target := resolveTarget st freshId target_name
        all_doc_ids := collectDocIds st (resolveSources st source_ids)
        add_calls :=
          if collectDocIds st (resolveSources st source_ids) = [] then []
          else add_tag_to_documents (collectDocIds st (resolveSources st source_ids))
            (resolveTarget st freshId target_name).id
        tags_to_delete :=
          mergeDeleteList (resolveSources st source_ids)
            (resolveTarget st freshId target_name)
        delete_call :=
          if mergeDeleteList (resolveSources st source_ids)
              (resolveTarget st freshId target_name) = [] then none
          else some (mergeDeleteList (resolveSources st source_ids)
            (resolveTarget st freshId target_name))
        affected_count := (collectDocIds st (resolveSources st source_ids)).length }

/-- Inserting one element keeps the no-duplicates invariant. -/
theorem setAdd_nodup (s : List Nat) (x : Nat) (h : s.Nodup) :
    (setAdd s x).Nodup := by
  unfold setAdd
  split
  · exact h
  · simpa [List.nodup_append] using ⟨h, by assumption⟩

/-- Inserting one element inserts it into the underlying finite set. -/
theorem setAdd_toFinset (s : List Nat) (x : Nat) :
    (setAdd s x).toFinset = insert x s.toFinset := by
  unfold setAdd
  split
  · rw [Finset.insert_eq_self.mpr]
    simpa using (by assumption)
  · rw [List.toFinset_append]
    ext a
    simp [or_comm]

/-- `set.update` unions the underlying finite sets. -/
theorem setUpdate_toFinset (xs : List Nat) :
    ∀ s : List Nat, (setUpdate s xs).toFinset = s.toFinset ∪ xs.toFinset := by
  induction xs with
  | nil => intro s; simp [setUpdate]
  | cons y ys ih =>
    intro s
    unfold setUpdate at ih ⊢
    rw [List.foldl_cons, ih, setAdd_toFinset]
    ext a
    simp [or_comm, or_assoc, or_left_comm]

/-- `set.update` keeps the no-duplicates invariant. -/
theorem setUpdate_nodup (xs : List Nat) :
    ∀ s : List Nat, s.Nodup → (setUpdate s xs).Nodup := by
  induction xs with
  | nil => intro s hs; exact hs
  | cons y ys ih =>
    intro s hs
    unfold setUpdate at ih ⊢
    rw [List.foldl_cons]
    exact ih _ (setAdd_nodup s y hs)

/-- The collected document-id list has no duplicates. -/
theorem collectDocIds_nodup (st : MergeState) (l : List Tag) :
    (collectDocIds st l).Nodup := by
  unfold collectDocIds
  suffices h : ∀ acc : List Nat, acc.Nodup →
      (l.foldl (fun acc tag => setUpdate acc (st.docsOf tag.id)) acc).Nodup by
    exact h [] List.nodup_nil
  induction l with
  | nil => intro acc hacc; exact hacc
  | cons t ts ih =>
    intro acc hacc
    rw [List.foldl_cons]
    exact ih _ (setUpdate_nodup _ _ hacc)

/-- The collected document ids are exactly the union, over the (deduplicated)
source entities, of the document-id sets fetched for them. -/
theorem collectDocIds_toFinset (st : MergeState) (l : List Tag) :
    (collectDocIds st l).toFinset =
      l.toFinset.biUnion (fun t => (st.docsOf t.id).toFinset) := by
  unfold collectDocIds
  suffices h : ∀ acc : List Nat,
      (l.foldl (fun acc tag => setUpdate acc (st.docsOf tag.id)) acc).toFinset =
        acc.toFinset ∪ l.toFinset.biUnion (fun t => (st.docsOf t.id).toFinset) by
    simpa using h []
  induction l with
  | nil => intro acc; simp
  | cons t ts ih =>
    intro acc
    rw [List.foldl_cons, ih, setUpdate_toFinset]
    rw [List.toFinset_cons, Finset.biUnion_insert]
    ext a
    simp [or_comm, or_assoc, or_left_comm]

/-! ### LLM response parsing (`_parse_response`, `_recover_partial_json` of
`app/llm_client.py`)

The lexical pre-processing (stripping think-tags, code fences, locating the
outermost braces) and the external `json.loads` / `re` calls are modelled by
their outcomes: `parsed = some v` stands for a successful `json.loads` with
parsed value `v`, `parsed = none` for a `JSONDecodeError`, in which case the
recovery path runs over the regex matches found in the content. -/

/-- A parsed JSON value, as `json.loads` returns it. -/
inductive JVal where
  | jstr (s : String)
  | jnum (n : Int)
  | jbool (b : Bool)
  | jnull
  | jarr (items : List JVal)
  | jobj (fields : List (String × JVal))

/-- Python `repr()` of a parsed JSON value; strings are quoted with `\x27`,
dict braces are written `\x7b` / `\x7d`. -/
def pyRepr : JVal → String
  | JVal.jstr s => "\x27" ++ s ++ "\x27"
  | JVal.jnum n => toString n
  | JVal.jbool b => if b then "True" else "False"
  | JVal.jnull => "None"
  | JVal.jarr items =>
    "[" ++ String.intercalate ", " (items.attach.map (fun x => pyRepr x.1)) ++ "]"
  | JVal.jobj fields =>
    "\x7b" ++ String.intercalate ", "
      (fields.attach.map (fun kv =>
        "\x27" ++ kv.1.1 ++ "\x27: " ++ pyRepr kv.1.2)) ++ "\x7d"
decreasing_by
  · have h1 : sizeOf x.1 < sizeOf items := List.sizeOf_lt_of_mem x.2
    simp only [JVal.jarr.sizeOf_spec]
    omega
  · have h1 : sizeOf kv.1 < sizeOf fields := List.sizeOf_lt_of_mem kv.2
    have h2 : sizeOf kv.1.2 < sizeOf kv.1 := by
      obtain ⟨⟨a, b⟩, hmem⟩ := kv
      simp
    simp only [JVal.jobj.sizeOf_spec]
    omega

/-- Python `str()` of a parsed JSON value: like `repr()` except that a
top-level string stays unquoted. -/
def pyStr : JVal → String
  | JVal.jstr s => s
  | v => pyRepr v

/-- Python truthiness of a parsed JSON value (the `if item` test). -/
def pyTruthy : JVal → Bool
  | JVal.jstr s => !(s == "")
  | JVal.jnum n => !(n == 0)
  | JVal.jbool b => b
  | JVal.jnull => false
  | JVal.jarr items => !items.isEmpty
  | JVal.jobj fields => !fields.isEmpty

/-- Python dict assignment `result[k] = v`: overwrite in place, else append
(insertion order preserved). -/
def dictSet {β : Type} : List (String × β) → String → β → List (String × β)
  | [], k, v => [(k, v)]
  | (k0, v0) :: rest, k, v =>
    if k0 = k then (k0, v) :: rest else (k0, v0) :: dictSet rest k v

/-- The per-group member scan of `_parse_response`: walk the raw member list
keeping one `seen` set and one `items` list, appending `str(item)` for each
truthy item not seen before.  Returns `(seen, items)`. -/
def dedupMembers (xs : List JVal) : List String × List String :=
  xs.foldl
    (fun acc item =>
      if pyTruthy item && !(acc.1.contains (pyStr item)) then
        (acc.1 ++ [pyStr item], acc.2 ++ [pyStr item])
      else acc)
    ([], [])

/-- One iteration of the validation loop of `_parse_response` (lines 218-228
of `app/llm_client.py`): keep a dict entry only when its value is a list of
length at least 2 whose deduplicated stringified truthy members still number
at least 2. -/
def validateStep (result : List (String × List String)) (kv : String × JVal) :
    List (String × List String) :=
  match kv.2 with
  | JVal.jarr xs =>
    if xs.length ≥ 2 then
      if (dedupMembers xs).2.length ≥ 2 then dictSet result kv.1 (dedupMembers xs).2
      else result
    else result
  | _ => result

/-- The validation/filter part of `_parse_response` (lines 212-230): a parse
result that is not a dict yields no groups; a dict is folded through
`validateStep`. -/
def validateGroups : JVal → List (String × List String)
  | JVal.jobj fields => fields.foldl validateStep []
  | _ => []

/-- One iteration of `_recover_partial_json` (lines 249-262): skip a match
named "groups" (case-insensitively), keep a match with at least 2 extracted
members — without any deduplication. -/
def recoverStep (result : List (String × List String))
    (m : String × List String) : List (String × List String) :=
  if strLower m.1 = "groups" then result
  else if m.2.length ≥ 2 then dictSet result m.1 m.2
  else result

/-- Method `_recover_partial_json` of `app/llm_client.py` (lines 239-265),
with the external regex scan modelled by its output `found`: for each
complete group pattern found in the truncated content, the group name and
the quoted strings extracted from its array body. -/
def recoverPartialJson (found : List (String × List String)) :
    List (String × List String) :=
  found.foldl recoverStep []

/-- Method `_parse_response` of `app/llm_client.py` after the lexical
cleanup: a successful `json.loads` goes through the validation loop, a
`JSONDecodeError` falls back to `_recover_partial_json` on the content. -/
def parse_response (parsed : Option JVal)
    (found : List (String × List String)) : List (String × List String) :=
  match parsed with
  | some v => validateGroups v
  | none => recoverPartialJson found

/-- An entry of `dictSet res k v` is the new binding or one of the old ones. -/
theorem mem_dictSet {β : Type} (res : List (String × β)) (k : String) (v : β)
    (g : String × β) (h : g ∈ dictSet res k v) :
    g.2 = v ∨ g ∈ res := by
  induction res with
  | nil =>
    simp only [dictSet, List.mem_singleton] at h
    exact Or.inl (h ▸ rfl)
  | cons kv rest ih =>
    rw [show dictSet (kv :: rest) k v =
        if kv.1 = k then (kv.1, v) :: rest else kv :: dictSet rest k v from rfl] at h
    split at h
    · rcases List.mem_cons.mp h with h1 | h1
      · exact Or.inl (h1 ▸ rfl)
      · exact Or.inr (List.mem_cons_of_mem kv h1)
    · rcases List.mem_cons.mp h with h1 | h1
      · exact Or.inr (h1 ▸ List.mem_cons_self kv rest)
      · rcases ih h1 with h2 | h2
        · exact Or.inl h2
        · exact Or.inr (List.mem_cons_of_mem kv h2)

/-- In the member scan, the `seen` set and the `items` list stay equal and
duplicate-free. -/
theorem dedupMembers_seen_eq (xs : List JVal) :
    (dedupMembers xs).1 = (dedupMembers xs).2 ∧ (dedupMembers xs).2.Nodup := by
  unfold dedupMembers
  suffices h : ∀ acc : List String × List String, acc.1 = acc.2 → acc.2.Nodup →
      ∀ r : List String × List String,
        r = xs.foldl
          (fun acc item =>
            if pyTruthy item && !(acc.1.contains (pyStr item)) then
              (acc.1 ++ [pyStr item], acc.2 ++ [pyStr item])
            else acc)
          acc →
        r.1 = r.2 ∧ r.2.Nodup by
    exact h ([], []) rfl List.nodup_nil _ rfl
  induction xs with
  | nil =>
    intro acc h1 h2 r hr
    rw [List.foldl_nil] at hr
    exact hr ▸ ⟨h1, h2⟩
  | cons x rest ih =>
    intro acc h1 h2 r hr
    rw [List.foldl_cons] at hr
    by_cases hc : pyTruthy x && !(acc.1.contains (pyStr x))
    · rw [if_pos hc] at hr
      refine ih _ (by rw [h1]) ?_ r hr
      have hn : pyStr x ∉ acc.2 := by
        have h3 := ((Bool.and_eq_true _ _).mp hc).2
        rw [h1] at h3
        simpa using h3
      simpa [List.nodup_append] using ⟨h2, hn⟩
    · rw [if_neg hc] at hr
      exact ih acc h1 h2 r hr

/-- One validation step only adds groups with duplicate-free members, at
least 2 of them. -/
theorem validateStep_mem (res : List (String × List String))
    (kv : String × JVal) (g : String × List String)
    (h : g ∈ validateStep res kv) :
    (g.2.Nodup ∧ 2 ≤ g.2.length) ∨ g ∈ res := by
  obtain ⟨k, val⟩ := kv
  cases val with
  | jarr xs =>
    simp only [validateStep] at h
    by_cases hlen : xs.length ≥ 2
    · rw [if_pos hlen] at h
      by_cases hitems : (dedupMembers xs).2.length ≥ 2
      · rw [if_pos hitems] at h
        rcases mem_dictSet res k _ g h with h2 | h2
        · exact Or.inl ⟨h2 ▸ (dedupMembers_seen_eq xs).2, h2 ▸ hitems⟩
        · exact Or.inr h2
      · rw [if_neg hitems] at h
        exact Or.inr h
    · rw [if_neg hlen] at h
      exact Or.inr h
  | jstr s => exact Or.inr h
  | jnum n => exact Or.inr h
  | jbool b => exact Or.inr h
  | jnull => exact Or.inr h
  | jobj fs => exact Or.inr h

/-- Every group kept by the validation loop of `_parse_response` has
duplicate-free members and at least 2 of them. -/
theorem validateGroups_members (v : JVal) (g : String × List String)
    (h : g ∈ validateGroups v) : g.2.Nodup ∧ 2 ≤ g.2.length := by
  match v with
  | JVal.jstr _ | JVal.jnum _ | JVal.jbool _ | JVal.jnull | JVal.jarr _ =>
    simp [validateGroups] at h
  | JVal.jobj fields =>
    unfold validateGroups at h
    suffices hinv : ∀ (fs : List (String × JVal)) (res : List (String × List String)),
        (∀ g0 ∈ res, g0.2.Nodup ∧ 2 ≤ g0.2.length) →
        ∀ g0 ∈ fs.foldl validateStep res, g0.2.Nodup ∧ 2 ≤ g0.2.length by
      exact hinv fields [] (by simp) g h
    intro fs
    induction fs with
    | nil => intro res hres g0 hg0; exact hres g0 hg0
    | cons kv rest ih =>
      intro res hres g0 hg0
      rw [List.foldl_cons] at hg0
      refine ih _ ?_ g0 hg0
      intro g1 hg1
      rcases validateStep_mem res kv g1 hg1 with h2 | h2
      · exact h2
      · exact hres g1 h2

/-- One recovery step only adds groups with at least 2 members. -/
theorem recoverStep_mem (res : List (String × List String))
    (m : String × List String) (g : String × List String)
    (h : g ∈ recoverStep res m) :
    2 ≤ g.2.length ∨ g ∈ res := by
  unfold recoverStep at h
  by_cases h1 : strLower m.1 = "groups"
  · rw [if_pos h1] at h
    exact Or.inr h
  · rw [if_neg h1] at h
    by_cases h2 : m.2.length ≥ 2
    · rw [if_pos h2] at h
      rcases mem_dictSet res m.1 m.2 g h with h3 | h3
      · exact Or.inl (h3 ▸ h2)
      · exact Or.inr h3
    · rw [if_neg h2] at h
      exact Or.inr h

/-- Every group kept by the recovery path has at least 2 (possibly
duplicated) members. -/
theorem recoverPartialJson_members (found : List (String × List String))
    (g : String × List String) (h : g ∈ recoverPartialJson found) :
    2 ≤ g.2.length := by
  unfold recoverPartialJson at h
  suffices hinv : ∀ (l : List (String × List String)) (res : List (String × List String)),
      (∀ g0 ∈ res, 2 ≤ g0.2.length) →
      ∀ g0 ∈ l.foldl recoverStep res, 2 ≤ g0.2.length by
    exact hinv found [] (by simp) g h
  intro l
  induction l with
  | nil => intro res hres g0 hg0; exact hres g0 hg0
  | cons m rest ih =>
    intro res hres g0 hg0
    rw [List.foldl_cons] at hg0
    refine ih _ ?_ g0 hg0
    intro g1 hg1
    rcases recoverStep_mem res m g1 hg1 with h2 | h2
    · exact h2
    · exact hres g1 h2


/-! ### Claim theorems -/

/-- Length of the collected document-id list is the cardinality of the union
of the per-source document-id sets. -/
theorem collectDocIds_length (st : MergeState) (l : List Tag) :
    (collectDocIds st l).length =
      (l.toFinset.biUnion (fun t => (st.docsOf t.id).toFinset)).card := by
  rw [← collectDocIds_toFinset, List.toFinset_card_of_nodup (collectDocIds_nodup st l)]

/-- Inversion of a successful merge: the fields of the result in terms of
the request and the remote state. -/
theorem merge_tags_ok_elim (st : MergeState) (freshId : Nat)
    (source_ids : List Nat) (target_name : String) (r : MergeResult)
    (h : merge_tags st freshId source_ids target_name = Except.ok r) :
    r.source_tags = resolveSources st source_ids
    ∧ r.target = resolveTarget st freshId target_name
    ∧ r.all_doc_ids = collectDocIds st r.source_tags
    ∧ r.tags_to_delete = mergeDeleteList r.source_tags r.target
    ∧ r.affected_count = r.all_doc_ids.length := by
  unfold merge_tags at h
  split at h
  · cases h
  split at h
  · cases h
  split at h
  · cases h
  rw [Except.ok.injEq] at h
  subst h
  exact ⟨rfl, rfl, rfl, rfl, rfl⟩

/-- C1: for every merge request whose source ids resolve to at least one
current entity (the merge returns a result), the reported `affected_count`
is the cardinality of the union of the document-id sets fetched for the
resolved source entities — a document associated with several sources is
counted exactly once. -/
theorem merge_affected_count_eq_union_card (st : MergeState) (freshId : Nat)
    (source_ids : List Nat) (target_name : String) (r : MergeResult)
    (h : merge_tags st freshId source_ids target_name = Except.ok r) :
    r.affected_count =
      (r.source_tags.toFinset.biUnion
        (fun t => (st.docsOf t.id).toFinset)).card := by
  obtain ⟨-, -, hdocs, -, hcount⟩ := merge_tags_ok_elim st freshId source_ids target_name r h
  rw [hcount, hdocs, collectDocIds_length]

/-- C2: every resolved source entity except the resolved target is passed to
bulk delete; a source whose id equals the resolved target's id (the target
being the case-insensitive exact-name lookup, or a freshly created entity)
is never in the delete list and survives as the target. -/
theorem merge_deletes_sources_except_target (st : MergeState) (freshId : Nat)
    (source_ids : List Nat) (target_name : String) (r : MergeResult)
    (h : merge_tags st freshId source_ids target_name = Except.ok r) :
    r.target = resolveTarget st freshId target_name
    ∧ r.tags_to_delete =
        (r.source_tags.filter (fun t => t.id ≠ r.target.id)).map (fun t => t.id)
    ∧ (∀ s ∈ r.source_tags, s.id ≠ r.target.id → s.id ∈ r.tags_to_delete)
    ∧ r.target.id ∉ r.tags_to_delete := by
  obtain ⟨-, htgt, -, hdel, -⟩ := merge_tags_ok_elim st freshId source_ids target_name r h
  rw [show mergeDeleteList r.source_tags r.target =
      (r.source_tags.filter (fun t => t.id ≠ r.target.id)).map (fun t => t.id) from rfl] at hdel
  refine ⟨htgt, hdel, ?_, ?_⟩
  · intro s hs hneq
    rw [hdel]
    exact List.mem_map.mpr ⟨s, List.mem_filter.mpr ⟨hs, by simpa using hneq⟩, rfl⟩
  · rw [hdel]
    intro hmem
    rcases List.mem_map.mp hmem with ⟨t, ht, hid⟩
    have h2 := (List.mem_filter.mp ht).2
    simp only [decide_eq_true_eq] at h2
    exact h2 hid

/-- Source tag A of the merge example (3 documents, ids 10 and 11 below). -/
def exA : Tag := ⟨1, "A", "", "", 0, "", true, 3⟩

/-- Source tag B of the merge example (5 documents, ids 11 and 12 below). -/
def exB : Tag := ⟨2, "B", "", "", 0, "", true, 5⟩

/-- Remote state of the merge example: tags A and B with overlapping
document-id sets. -/
def exState : MergeState :=
  ⟨[exA, exB], fun i => if i = 1 then [10, 11] else if i = 2 then [11, 12] else []⟩

/-- The result the merge example computes. -/
def exMergeRes : MergeResult :=
  { source_tags := [exA, exB]
    target := ⟨3, "C", "", "#a6cee3", 0, "", true, 0⟩
    all_doc_ids := [10, 11, 12]
    add_calls := [DocBulkEditCall.add_tag [10, 11, 12] 3]
    tags_to_delete := [1, 2]
    delete_call := some [1, 2]
    affected_count := 3 }

/-- Witness for C1: merging A (docs 10, 11) and B (docs 11, 12) into a new
target "C" reports `affected_count = 3`, the size of the union. -/
theorem merge_affected_count_eq_union_card_witness :
    merge_tags exState 3 [1, 2] "C" = Except.ok exMergeRes
    ∧ exMergeRes.affected_count =
        (exMergeRes.source_tags.toFinset.biUnion
          (fun t => (exState.docsOf t.id).toFinset)).card :=
  ⟨by rfl, merge_affected_count_eq_union_card exState 3 [1, 2] "C" exMergeRes (by rfl)⟩

/-- Source tag named "c" of the second merge example: it equals the target
name case-insensitively, so it is resolved as the target and survives. -/
def exBc : Tag := ⟨2, "c", "", "", 0, "", true, 5⟩

/-- Remote state of the second merge example. -/
def exState2 : MergeState :=
  ⟨[exA, exBc], fun i => if i = 1 then [10] else []⟩

/-- The result the second merge example computes: the target resolves to the
existing tag "c" (id 2) and only id 1 is deleted. -/
def exMergeRes2 : MergeResult :=
  { source_tags := [exA, exBc]
    target := exBc
    all_doc_ids := [10]
    add_calls := [DocBulkEditCall.add_tag [10] 2]
    tags_to_delete := [1]
    delete_call := some [1]
    affected_count := 1 }

/-- Witness for C2: merging A (id 1) and "c" (id 2) into "C" resolves the
target to the existing tag "c", which is not in the delete list; the other
source is. -/
theorem merge_deletes_sources_except_target_witness :
    merge_tags exState2 9 [1, 2] "C" = Except.ok exMergeRes2
    ∧ (exMergeRes2.target = resolveTarget exState2 9 "C"
      ∧ exMergeRes2.tags_to_delete =
          (exMergeRes2.source_tags.filter
            (fun t => t.id ≠ exMergeRes2.target.id)).map (fun t => t.id)
      ∧ (∀ s ∈ exMergeRes2.source_tags,
          s.id ≠ exMergeRes2.target.id → s.id ∈ exMergeRes2.tags_to_delete)
      ∧ exMergeRes2.target.id ∉ exMergeRes2.tags_to_delete) :=
  ⟨by rfl, merge_deletes_sources_except_target exState2 9 [1, 2] "C" exMergeRes2 (by rfl)⟩

/-- A concrete matcher for examples: case-insensitive substring containment,
the behavior of `re.search(p, s, re.IGNORECASE)` for the metacharacter-free
default exclude patterns ("new", "inbox", "todo", "review"). -/
def searchLiteralCI (p : String) (s : String) : Bool :=
  (strLower s).data.tails.any (fun suf => (strLower p).data.isPrefixOf suf)

/-- An auto-matching tag (matching algorithm 6) with no documents. -/
def exAutoTag : Tag := ⟨4, "auto tag", "", "", 6, "", true, 0⟩

/-- An ordinary tag (matching algorithm 0) with no documents. -/
def exNormalTag : Tag := ⟨5, "normal tag", "", "", 0, "", true, 0⟩

/-- C3: the flag-accepting low-usage filter returns exactly the entities
with `documentCount <= maxDocs` whose name matches no exclude pattern and
which are not dropped by `excludeAuto AND isAuto`, in their original input
order (the filter is the order-preserving list filter by that conjunction);
in particular an Auto entity under the document threshold with no pattern
match is returned when `excludeAuto` is false. -/
theorem findLowUsageSpec_characterization (search : String → String → Bool)
    (tags : List Tag) (max_docs : Nat) (pats : List String) (ea : Bool) :
    findLowUsageSpec search tags max_docs pats ea =
      tags.filter (fun t =>
        decide (t.document_count ≤ max_docs)
          && !(pats.any (fun p => search p t.name)) && !(ea && t.is_auto))
    ∧ (∀ t ∈ tags, t.document_count ≤ max_docs →
        (∀ p ∈ pats, search p t.name = false) →
        t ∈ findLowUsageSpec search tags max_docs pats false) := by
  refine ⟨findLowUsageSpec_eq_filter search tags max_docs pats ea, ?_⟩
  intro t ht hdc hpats
  rw [findLowUsageSpec_eq_filter]
  refine List.mem_filter.mpr ⟨ht, ?_⟩
  have hany : pats.any (fun p => search p t.name) = false := by
    rw [List.any_eq_false]
    intro p hp
    simp [hpats p hp]
  simp [hdc, hany]

/-- Witness for C3: an Auto tag with zero documents and no exclude patterns
is kept by the filter when `excludeAuto` is false. -/
theorem findLowUsageSpec_characterization_witness :
    exAutoTag ∈ findLowUsageSpec searchLiteralCI [exAutoTag] 1 [] false :=
  (findLowUsageSpec_characterization searchLiteralCI [exAutoTag] 1 [] false).2
    exAutoTag (by decide) (by decide) (by decide)

/-- C4: on a non-empty id list, a 404 from the bulk endpoint triggers the
per-id fallback in exactly `ceil(n / 10)` batches; every id gets a deletion
attempt whatever the individual outcomes, with failures recorded; a non-404
HTTP error raises without attempting any individual deletion. -/
theorem bulk_delete_fallback_behavior (resp : BulkResp) (dOk : Nat → Bool)
    (ids : List Nat) (h : ids ≠ []) :
    (resp = BulkResp.httpError 404 →
      (bulk_delete_tags resp dOk ids).batches.length = (ids.length + 9) / 10
      ∧ (bulk_delete_tags resp dOk ids).attempted = ids
      ∧ (bulk_delete_tags resp dOk ids).failed = ids.filter (fun i => !dOk i)
      ∧ (bulk_delete_tags resp dOk ids).raised = none)
    ∧ (∀ s : Nat, resp = BulkResp.httpError s → s ≠ 404 →
      (bulk_delete_tags resp dOk ids).raised.isSome = true
      ∧ (bulk_delete_tags resp dOk ids).attempted = []
      ∧ (bulk_delete_tags resp dOk ids).batches = []) := by
  constructor
  · intro h404
    subst h404
    simp only [bulk_delete_tags, bulk_delete_core, if_neg h]
    simp [runBatches_spec, chunks10_length, chunks10_join]
  · intro s hs hs404
    subst hs
    simp only [bulk_delete_tags, bulk_delete_core, if_neg h]
    simp [hs404]

/-- The id list of the bulk-delete example: 11 ids, so two fallback batches. -/
def ids11 : List Nat := [1, 2, 3, 4, 5, 6, 7, 8, 9, 10, 11]

/-- Witness for C4: with 11 ids and an individual failure on id 3, the 404
fallback runs 2 batches, attempts all 11 ids and records the one failure. -/
theorem bulk_delete_fallback_behavior_witness :
    (bulk_delete_tags (BulkResp.httpError 404) (fun i => decide (i ≠ 3)) ids11).batches.length
        = (ids11.length + 9) / 10
    ∧ (bulk_delete_tags (BulkResp.httpError 404) (fun i => decide (i ≠ 3)) ids11).attempted = ids11
    ∧ (bulk_delete_tags (BulkResp.httpError 404) (fun i => decide (i ≠ 3)) ids11).failed
        = ids11.filter (fun i => !(decide (i ≠ 3)))
    ∧ (bulk_delete_tags (BulkResp.httpError 404) (fun i => decide (i ≠ 3)) ids11).raised = none :=
  (bulk_delete_fallback_behavior (BulkResp.httpError 404) (fun i => decide (i ≠ 3)) ids11
    (by decide)).1 rfl

/-- C5: the hybrid grouping with semantic grouping disabled is exactly the
prefix grouping reprojected under `prefix:`-namespaced keys, for every
semantic grouper (hence every similarity threshold). -/
theorem group_tags_hybrid_semantic_disabled
    (semantic : List Tag → List (String × List Tag)) (tags : List Tag)
    (min_prefix_length : Nat) :
    group_tags_hybrid semantic tags min_prefix_length false =
      ( group_tags_by_prefix tags min_prefix_length).map
        (fun kv => ("prefix:" ++ kv.1, kv.2)) := by
  simp [group_tags_hybrid]

/-- C6 counterexample: with zero items and `page_size = 50` the code reports
`total_pages = 0`, not `max 1 (ceil (0 / 50)) = 1`. -/
theorem paginate_total_pages_not_clamped :
    ¬ ((paginate ([] : List Nat) 1 50).2.2 =
        max 1 ((([] : List Nat).length + 50 - 1) / 50)) := by decide

/-- C6 amended: `total_pages` is the unclamped ceiling
`(total + page_size - 1) / page_size` — 0, not 1, when the list is empty —
and requesting a page beyond the range yields an empty item slice together
with the correct total. -/
theorem paginate_pages_and_out_of_range {α : Type} (items : List α)
    (page : Nat) (page_size : Nat) (h1 : 1 ≤ page) (h2 : 0 < page_size) :
    (paginate items page page_size).2.2 = (items.length + page_size - 1) / page_size
    ∧ (paginate items page page_size).2.1 = items.length
    ∧ ((paginate items page page_size).2.2 < page →
        (paginate items page page_size).1 = []) := by
  refine ⟨by simp [paginate, h2], by simp [paginate], ?_⟩
  intro hq
  simp only [paginate] at hq ⊢
  rw [if_pos h2] at hq
  obtain ⟨X, hX⟩ :
      ∃ X, X = page_size * ((items.length + page_size - 1) / page_size) :=
    ⟨_, rfl⟩
  have hdm := Nat.div_add_mod (items.length + page_size - 1) page_size
  have hmod : (items.length + page_size - 1) % page_size < page_size :=
    Nat.mod_lt _ h2
  rw [← hX] at hdm
  have hLq : items.length ≤ X := by omega
  have hqle : (items.length + page_size - 1) / page_size ≤ page - 1 := by omega
  have hmul : page_size * ((items.length + page_size - 1) / page_size) ≤
      page_size * (page - 1) := Nat.mul_le_mul_left _ hqle
  rw [← hX] at hmul
  have hfin : items.length ≤ (page - 1) * page_size := by
    rw [Nat.mul_comm]
    omega
  rw [List.drop_eq_nil_of_le hfin]
  simp

/-- Witness for C6 (amended): three items with page size 2 give 2 total
pages; page 5 is beyond range and returns an empty slice with total 3. -/
theorem paginate_pages_and_out_of_range_witness :
    (paginate [10, 20, 30] 5 2).2.2 = ([10, 20, 30].length + 2 - 1) / 2
    ∧ (paginate [10, 20, 30] 5 2).2.1 = [10, 20, 30].length
    ∧ ((paginate [10, 20, 30] 5 2).2.2 < 5 → (paginate [10, 20, 30] 5 2).1 = []) :=
  paginate_pages_and_out_of_range [10, 20, 30] 5 2 (by decide) (by decide)

/-- C7: in every group produced by the prefix groupers (tags and
correspondents), consecutive members are ordered by descending document
count, ties broken by ascending lowercased name. -/
theorem prefix_groups_sorted :
    (∀ (tags : List Tag) (n : Nat) (k : String) (g : List Tag),
      (k, g) ∈ group_tags_by_prefix tags n →
      g.Pairwise (fun a b => b.document_count < a.document_count ∨
        (a.document_count = b.document_count ∧ strLower a.name ≤ strLower b.name)))
    ∧ (∀ (cs : List Correspondent) (n : Nat) (k : String) (g : List Correspondent),
      (k, g) ∈ group_correspondents_by_prefix cs n →
      g.Pairwise (fun a b => b.document_count < a.document_count ∨
        (a.document_count = b.document_count ∧ strLower a.name ≤ strLower b.name))) := by
  constructor
  · intro tags n k g h
    have h2 := group_by_prefix_core_sorted Tag.name Tag.document_count tags n k g h
    exact h2.imp (fun hab => hab)
  · intro cs n k g h
    have h2 := group_by_prefix_core_sorted Correspondent.name
      Correspondent.document_count cs n k g h
    exact h2.imp (fun hab => hab)

/-- The three tags of the spec's ordering example. -/
def exTestLow : Tag := ⟨1, "test low", "", "", 0, "", true, 1⟩

/-- Second tag of the ordering example. -/
def exTestHigh : Tag := ⟨2, "test high", "", "", 0, "", true, 100⟩

/-- Third tag of the ordering example. -/
def exTestMedium : Tag := ⟨3, "test medium", "", "", 0, "", true, 50⟩

/-- Witness for C7: the spec's example group, sorted high/medium/low. -/
theorem prefix_groups_sorted_witness :
    ("test", [exTestHigh, exTestMedium, exTestLow]) ∈
      group_tags_by_prefix [exTestLow, exTestHigh, exTestMedium] 3
    ∧ [exTestHigh, exTestMedium, exTestLow].Pairwise
        (fun a b => b.document_count < a.document_count ∨
          (a.document_count = b.document_count ∧ strLower a.name ≤ strLower b.name)) :=
  ⟨by decide, prefix_groups_sorted.1 [exTestLow, exTestHigh, exTestMedium] 3 "test"
    [exTestHigh, exTestMedium, exTestLow] (by decide)⟩

/-- C8 counterexample: on the truncated content, whose only complete group
pattern is a group "G" with the duplicated member list `["a", "a"]` (for
instance the raw text consisting of an opening brace, the pair
`"G": ["a", "a"]` and a trailing comma, on which `json.loads` raises), the
recovery path keeps the group even though it has a single member after
deduplication. -/
theorem parse_response_recovery_keeps_duplicates :
    ("G", ["a", "a"]) ∈ parse_response none [("G", ["a", "a"])]
    ∧ ¬ (2 ≤ ["a", "a"].dedup.length) := by decide

/-- C8 amended: a group map from a successfully parsed JSON response
contains only groups whose members are deduplicated (hence pairwise
distinct) strings numbering at least 2, with non-list values dropped; a
group map produced by the truncated-JSON recovery path only guarantees at
least 2 members, which may contain duplicates. -/
theorem parse_response_group_guarantees :
    (∀ (v : JVal) (found : List (String × List String)) (g : String × List String),
      g ∈ parse_response (some v) found → g.2.Nodup ∧ 2 ≤ g.2.length)
    ∧ (∀ (found : List (String × List String)) (g : String × List String),
      g ∈ parse_response none found → 2 ≤ g.2.length) := by
  constructor
  · intro v found g h
    exact validateGroups_members v g h
  · intro found g h
    exact recoverPartialJson_members found g h

/-- Witness for C8 (amended): a parsed object with one two-member group
yields that group, duplicate-free with 2 members. -/
theorem parse_response_group_guarantees_witness :
    ("G", ["a", "b"]) ∈ parse_response
        (some (JVal.jobj [("G", JVal.jarr [JVal.jstr "a", JVal.jstr "b"])])) []
    ∧ (["a", "b"].Nodup ∧ 2 ≤ ["a", "b"].length) :=
  ⟨by decide, parse_response_group_guarantees.1
    (JVal.jobj [("G", JVal.jarr [JVal.jstr "a", JVal.jstr "b"])]) []
    ("G", ["a", "b"]) (by decide)⟩

/-- C9: no entity with matching algorithm 6 (Auto) ever appears in the
output of the source tree's low-usage filters, for every matcher, entity
list, document threshold and pattern list — the functions expose no
parameter that could include them. -/
theorem low_usage_excludes_auto :
    (∀ (search : String → String → Bool) (tags : List Tag) (m : Nat)
      (pats : List String) (t : Tag),
      t ∈ find_low_usage_tags search tags m pats → t.matching_algorithm ≠ 6)
    ∧ (∀ (search : String → String → Bool) (cs : List Correspondent) (m : Nat)
      (pats : List String) (c : Correspondent),
      c ∈ find_low_usage_correspondents search cs m pats →
        c.matching_algorithm ≠ 6) := by
  constructor
  · intro search tags m pats t ht
    rw [find_low_usage_tags_eq_filter] at ht
    have h2 := (List.mem_filter.mp ht).2
    simp [Tag.is_auto] at h2
    exact h2.2
  · intro search cs m pats c hc
    rw [find_low_usage_correspondents_eq_filter] at hc
    have h2 := (List.mem_filter.mp hc).2
    simp [Correspondent.is_auto] at h2
    exact h2.2

/-- Witness for C9: of an auto tag and a normal tag, only the normal one
comes back, and its algorithm is not 6. -/
theorem low_usage_excludes_auto_witness :
    exNormalTag ∈ find_low_usage_tags searchLiteralCI [exAutoTag, exNormalTag] 1 []
    ∧ exNormalTag.matching_algorithm ≠ 6 :=
  ⟨by decide, low_usage_excludes_auto.1 searchLiteralCI [exAutoTag, exNormalTag]
    1 [] exNormalTag (by decide)⟩

/-- C10: an empty id list makes bulk delete return at once with no remote
request of any kind, and an empty document-id list makes the add-tag and
set-correspondent document operations issue no bulk-edit request. -/
theorem empty_input_no_remote_calls :
    (∀ (resp : BulkResp) (dOk : Nat → Bool),
      bulk_delete_tags resp dOk [] = ⟨false, [], [], [], none⟩
      ∧ bulk_delete_correspondents resp dOk [] = ⟨false, [], [], [], none⟩)
    ∧ (∀ tag_id : Nat, add_tag_to_documents [] tag_id = [])
    ∧ (∀ correspondent_id : Nat,
        set_correspondent_on_documents [] correspondent_id = []) :=
  ⟨fun _ _ => ⟨rfl, rfl⟩, fun _ => rfl, fun _ => rfl⟩

end Paperless
